import Mathlib

set_option autoImplicit false

namespace CertbotDnsNgenix

/-- JSON-like values, the value universe for DNS record fields as parsed from
the NGENIX API responses (`response.json()` in the source). One level of
object nesting is enough for the NGENIX record schema the plugin manipulates:
scalar fields such as `name`, `type`, `data`, `ttl`, and object fields such as
`configRef` and `targetGroupRef` whose sub-fields (`id`, `link`, ...) are
scalars. -/
inductive JVal where
  | jstr (s : String)
  | jint (n : Int)
  | jobj (fields : List (String × String))
deriving DecidableEq, Repr

/-- a DNS record is a Python dict: an association list from field names to values.
Python dicts have unique keys; the claims below never depend on duplicate keys. -/
abbrev Record := List (String × JVal)

instance {ε α : Type} [DecidableEq ε] [DecidableEq α] : DecidableEq (Except ε α) := fun x y =>
  match x, y with
  | Except.error a, Except.error b =>
    if h : a = b then isTrue (by rw [h]) else isFalse (by simp [h])
  | Except.ok a, Except.ok b =>
    if h : a = b then isTrue (by rw [h]) else isFalse (by simp [h])
  | Except.error _, Except.ok _ => isFalse (by simp)
  | Except.ok _, Except.error _ => isFalse (by simp)

/-- a DNS zone element from `GET /dns-zone` with its `name` and `id` fields
(`dns_zone[name]`, `dns_zone[id]` in `_get_dns_zone_id`). -/
structure DnsZone where
  name : String
  id : String
deriving DecidableEq, Repr

/-! ## Pure record-set helpers (`_add_txt_record`, `_delete_txt_record`) -/

/-- the record literal built by both `_add_txt_record` and `_delete_txt_record`:
`{data: record_data, name: record_name, type: TXT}` (source key order kept). -/
def mkTxtRecord (recordName recordData : String) : Record :=
  [("data", JVal.jstr recordData), ("name", JVal.jstr recordName), ("type", JVal.jstr "TXT")]

/-- Python dict equality of `record` with the literal `{data: record_data, name: record_name, type: TXT}`:
order-insensitive, so a dict is equal to the three-field literal exactly when it has
three entries and the three lookups return the three string values. (On association
lists with three entries, three distinct successful lookups force the three keys,
so no separate well-formedness condition is needed.) -/
def recordEqTriple (recordName recordData : String) (r : Record) : Bool :=
  r.length == 3 &&
    r.lookup "data" == some (JVal.jstr recordData) &&
    r.lookup "name" == some (JVal.jstr recordName) &&
    r.lookup "type" == some (JVal.jstr "TXT")

/-- `_add_txt_record`: deep-copies the fetched records and appends the new TXT
record literal. The deep copy is semantically the identity here, so the result
is the input list with the new record appended. -/
def addTxtRecordFn (recordName recordData : String) (dnsZoneRecords : List Record) :
    List Record :=
  dnsZoneRecords ++ [mkTxtRecord recordName recordData]

/-- `_delete_txt_record`: keeps every record that is not Python-equal to the
three-field TXT literal (`[record for record in dns_zone_records if record != deleted_record]`).
The deep copy made first is discarded: the comprehension filters the original
list, so the VALUE returned is the filter modelled here, but the returned list
aliases the fetched dict objects — the consequence of that aliasing for the
remove workflow backup is modelled by `delBackupRecords`. -/
def deleteTxtRecordFn (recordName recordData : String) (dnsZoneRecords : List Record) :
    List Record :=
  dnsZoneRecords.filter (fun r => !(recordEqTriple recordName recordData r))

/-! ## Link stripping in `_update_dns_zone_records` (lines 177-184) -/

/-- `record[ref].pop(link, None)` on an object value: drop the `link` sub-field.
(The source would raise on a non-object value; the NGENIX `configRef` and
`targetGroupRef` fields are always objects, and no claim exercises that path,
so a non-object value is returned unchanged.) -/
def popLink : JVal → JVal
  | JVal.jobj fields => JVal.jobj (fields.filter (fun kv => kv.1 != "link"))
  | v => v

/-- in-place update of the value stored under `key`: the entry keeps its position;
only its value is rewritten by `popLink`. -/
def popLinkAt (key : String) (r : Record) : Record :=
  r.map (fun kv => if kv.1 = key then (kv.1, popLink kv.2) else kv)

/-- the per-record body of the stripping loop in `_update_dns_zone_records`:
`if configRef in record ... elif targetGroupRef in record ... else continue`,
then `record[ref].pop(link, None)`.
Note the `elif`: when both keys are present only `configRef` is stripped. -/
def stripRecordRefLink (r : Record) : Record :=
  if (r.lookup "configRef").isSome then popLinkAt "configRef" r
  else if (r.lookup "targetGroupRef").isSome then popLinkAt "targetGroupRef" r
  else r

/-- the whole stripping loop applied to the record set about to be PATCHed. -/
def stripLinks (records : List Record) : List Record :=
  records.map stripRecordRefLink

/-- the state of `dns_zone_records` when the remove workflow reaches its
backup write (line 147): the list comprehension in `_delete_txt_record`
(lines 170-174) builds `new_dns_zone_records` out of the very dict objects of
the fetched list, and the stripping loop of `_update_dns_zone_records`
(lines 177-184) then pops their `link` sub-fields in place — so by line 147
every fetched record that survived the filter has been link-stripped, while
the records equal to the deleted triple are not in the submitted list and
stay untouched (they carry no `configRef`/`targetGroupRef` anyway). -/
def delBackupRecords (recordName recordData : String) (recs : List Record) : List Record :=
  recs.map (fun r =>
    if recordEqTriple recordName recordData r then r else stripRecordRefLink r)

/-! ## Zone resolution (the `for i in range(4)` loop plus `_get_dns_zone_id`) -/

/-- split a character list at every dot, the code-point-level meaning of
splitting the domain at dots: `"c.a.b"` becomes `["c", "a", "b"]`, the empty string
becomes `[""]`. Spelled out structurally so that concrete inputs evaluate
inside the kernel. -/
def splitDots : List Char → List (List Char)
  | [] => [[]]
  | c :: cs =>
    let rest := splitDots cs
    if c = '.' then [] :: rest
    else
      match rest with
      | [] => [[c]]
      | l :: ls => (c :: l) :: ls

/-- re-join labels with dots, the inverse of `splitDots`. -/
def joinDots : List (List Char) → List Char
  | [] => []
  | [l] => l
  | l :: ls => l ++ '.' :: joinDots ls

/-- the regex step of attempt `i`: `re.search(regex, domain).group(1)` where the
regex is `(.*)` preceded by `i` copies of the non-greedy `.*?\.`. Each copy
consumes the shortest prefix ending in a dot, i.e. exactly one label, so the
match succeeds exactly when the domain has more than `i` dot-separated labels
and group 1 is the domain with its `i` leftmost labels stripped. A failed
match makes `.group(1)` raise, modelled as `none`. -/
def stripLeftLabels (i : Nat) (domain : String) : Option String :=
  let labels := splitDots domain.data
  if i < labels.length then some (String.mk (joinDots (labels.drop i))) else none

/-- the zone-name filter inside `_get_dns_zone_id`:
`[dns_zone for dns_zone in dns_zones if dns_zone[name] == domain][0]`, i.e.
the first zone in the listing whose name equals the candidate, with its `id`
extracted; indexing an empty list raises, modelled as `none`. -/
def getDnsZoneId (zones : List DnsZone) (domain : String) : Option String :=
  ((zones.filter (fun z => z.name == domain)).head?).map (fun z => z.id)

/-- one iteration of the zone-resolution loop: run the regex for attempt `i`
and, when it matches, look the candidate zone name up in the listing fetched
by `_get_dns_zone_id`. `zoneList` is the outcome of `GET /dns-zone` (the source
refetches it on every attempt; the listing is modelled as stable during one
invocation). An error value carries the text of the exception raised. -/
def resolveAttempt (zoneList : Except String (List DnsZone)) (domain : String) (i : Nat) :
    Except String (String × String) :=
  match stripLeftLabels i domain with
  | none => Except.error "NoneType object has no attribute group"
  | some domainZone =>
    match zoneList with
    | Except.error e => Except.error e
    | Except.ok zones =>
      match getDnsZoneId zones domainZone with
      | none => Except.error
          ("Error occurred while trying to get dns zone id for domain " ++ domainZone ++ ".\n")
      | some zoneId => Except.ok (domainZone, zoneId)

/-- the loop `for i in range(4): try: ... break except: if i == 3: raise ...`:
attempt `i` with `fuel` attempts remaining (entered with `i = 0`, `fuel = 4`);
the first successful attempt wins, and the failure of the last attempt raises
the `PluginError` built by `finalErr` from the text of the last exception. -/
def resolveZoneGo (zoneList : Except String (List DnsZone)) (domain : String)
    (finalErr : String → String) : Nat → Nat → Except String (String × String)
  | _, 0 => Except.error (finalErr "")
  | i, fuel + 1 =>
    match resolveAttempt zoneList domain i with
    | Except.ok p => Except.ok p
    | Except.error e =>
      if fuel = 0 then Except.error (finalErr e)
      else resolveZoneGo zoneList domain finalErr (i + 1) fuel

/-- the final `PluginError` message of the loop in `add_txt_record`
(it does not interpolate the underlying exception). -/
def addZoneFinalErr (_ : String) : String :=
  "Error occurred while trying to get domain zone name.\n"

/-- the final `PluginError` message of the loop in `delete_txt_record`
(it interpolates the text of the last exception). -/
def delZoneFinalErr (e : String) : String :=
  "Error occurred while trying to get domain zone name and id.\nError text: " ++ e ++ ".\n"

/-- zone resolution as performed by `add_txt_record` (lines 88-102). -/
def resolveZoneAdd (zoneList : Except String (List DnsZone)) (domain : String) :
    Except String (String × String) :=
  resolveZoneGo zoneList domain addZoneFinalErr 0 4

/-- zone resolution as performed by `delete_txt_record` (lines 125-140). -/
def resolveZoneDel (zoneList : Except String (List DnsZone)) (domain : String) :
    Except String (String × String) :=
  resolveZoneGo zoneList domain delZoneFinalErr 0 4

/-- drop a leading run of characters from a list when it matches `p` exactly;
`none` when it does not. -/
def dropLeading : List Char → List Char → Option (List Char)
  | [], cs => some cs
  | _ :: _, [] => none
  | p :: ps, c :: cs => if c = p then dropLeading ps cs else none

/-- the `re.sub` call on `record_name` with pattern `\.{domain_zone}$`: drop the `.{domain_zone}`
suffix from the fully-qualified record name, if present — implemented by
matching the reversed pattern at the front of the reversed name. (In the
source the zone name is interpolated into the pattern unescaped, so a dot in
it matches any character; this model reads the pattern literally, which
coincides with the source on real zone names looked up verbatim in the zone
listing.) -/
def stripZoneSuffix (recordName domainZone : String) : String :=
  match dropLeading ('.' :: domainZone.data).reverse recordName.data.reverse with
  | some remaining => String.mk remaining.reverse
  | none => recordName

/-! ## Propagation waiter (`_wait_for_record_propagation`, lines 237-250) -/

/-- the `txt_record[1:-1]` slice applied to each output line of `dig`:
drop the first and the last character (the quotes around a TXT value);
Python slices by code point, matching the `List Char` view. -/
def stripOuterQuotes (s : String) : String :=
  String.mk ((s.data.drop 1).dropLast)

/-- the timeout `PluginError` raised when the retry counter reaches zero. -/
def propagationTimeoutMsg (recordName : String) : String :=
  "Maximum amount of retries reached while trying to get new TXT record " ++ recordName ++ ".\n"

/-- the `while record_data not in txt_records` loop. `dig k` is the outcome of
the `k`-th `dig` subprocess call (call 0 happens before the loop); `txtRecords`
is the already-quoted-stripped result of the previous call, `counter` the
Python retry counter, `k` the index of the next `dig` call, `sleeps` the number
of 60-second sleeps performed so far. Loop body order follows the source:
query, decrement, raise on zero, sleep, re-test. The raise happens before the
fresh query result is tested, so the final query is made but never examined.
On success the value is `(k, sleeps)`: the value was seen by query `k - 1`
after `sleeps` sleeps. The `counter = 0` entry case cannot be reached from
`waitForRecordPropagation` (the counter starts at 15 and the loop raises when
it hits 1 → 0); it is mapped to the timeout error to keep the model total. -/
def waitLoop (dig : Nat → Except String (List String)) (recordName recordData : String) :
    List String → Nat → Nat → Nat → Except String (Nat × Nat)
  | txtRecords, counter, k, sleeps =>
    if recordData ∈ txtRecords then Except.ok (k, sleeps)
    else
      match counter with
      | 0 => Except.error (propagationTimeoutMsg recordName)
      | c + 1 =>
        match dig k with
        | Except.error e => Except.error e
        | Except.ok rawLines =>
          if c = 0 then Except.error (propagationTimeoutMsg recordName)
          else waitLoop dig recordName recordData (rawLines.map stripOuterQuotes) c (k + 1)
                 (sleeps + 1)

/-- `_wait_for_record_propagation`: initial `dig` call, `counter = 15`, then the
retry loop. A failing `dig` subprocess call raises and aborts. -/
def waitForRecordPropagation (dig : Nat → Except String (List String))
    (recordName recordData : String) : Except String (Nat × Nat) :=
  match dig 0 with
  | Except.error e => Except.error e
  | Except.ok rawLines =>
    waitLoop dig recordName recordData (rawLines.map stripOuterQuotes) 15 1 0

/-! ## Backup files (`_create_backup_file`, lines 154-162) -/

/-- a wall-clock instant as used by `datetime.datetime.now()`. -/
structure Timestamp where
  year : Nat
  month : Nat
  day : Nat
  hour : Nat
  minute : Nat
  second : Nat
deriving DecidableEq, Repr

/-- two-digit zero padding as produced by `strftime` for `%m %d %H %M %S`. -/
def pad2 (n : Nat) : String :=
  if n < 10 then "0" ++ toString n else toString n

/-- `strftime` with format `%Y-%m-%d_%H-%M-%S`: the backup timestamp, precise to the second. -/
def formatTimestamp (t : Timestamp) : String :=
  toString t.year ++ "-" ++ pad2 t.month ++ "-" ++ pad2 t.day ++ "_" ++
    pad2 t.hour ++ "-" ++ pad2 t.minute ++ "-" ++ pad2 t.second

/-- `json.dumps` on the embedded value universe (default separators). Braces
and quotes are produced literally. -/
def dumpAtom : (String × String) → String
  | (k, v) => "\"" ++ k ++ "\": \"" ++ v ++ "\""

/-- serialize one value. -/
def dumpJVal : JVal → String
  | JVal.jstr s => "\"" ++ s ++ "\""
  | JVal.jint n => toString n
  | JVal.jobj fields => "\x7b" ++ String.intercalate ", " (fields.map dumpAtom) ++ "\x7d"

/-- serialize one record (a JSON object). -/
def dumpRecord (r : Record) : String :=
  "\x7b" ++ String.intercalate ", "
    (r.map (fun kv => "\"" ++ kv.1 ++ "\": " ++ dumpJVal kv.2)) ++ "\x7d"

/-- serialize a record set (a JSON array), as written into the backup file. -/
def dumpRecords (records : List Record) : String :=
  "[" ++ String.intercalate ", " (records.map dumpRecord) ++ "]"

/-- `_create_backup_file`: the name and content of the snapshot file written
under `/tmp/ngenix-dns-zone`. The name is `{domain}.{time}.{tag}.json` when a
tag is given (both call sites pass one) and `{domain}.{time}.json` otherwise;
the content is the zone id on its own line followed by the JSON record set. -/
def createBackupFile (now : Timestamp) (dnsZoneId domain : String)
    (dnsZoneRecords : List Record) (tag : Option String) : String × String :=
  let currentTime := formatTimestamp now
  let fileName :=
    match tag with
    | some t => domain ++ "." ++ currentTime ++ "." ++ t ++ ".json"
    | none => domain ++ "." ++ currentTime ++ ".json"
  (fileName, dnsZoneId ++ "\n" ++ dumpRecords dnsZoneRecords)

/-! ## The two workflows (`add_txt_record`, `delete_txt_record`)

The I/O surface of one invocation. Every effectful step of the source is an
`Except`-valued outcome supplied by the environment; an error value carries the
text of the exception the source would see (`str(e)` of the raised
`PluginError` or of the underlying OS/HTTP exception). One invocation fetches
the record set of a single zone once, so the fetch outcome is a single value. -/
structure Env where
  /-- outcome of `GET /dns-zone` (the customer zone listing). -/
  zoneList : Except String (List DnsZone)
  /-- outcome of `GET /dns-zone/{id}` and its records field (`_get_dns_zone_records`). -/
  recordsFetch : Except String (List Record)
  /-- outcome of the filesystem write in `_create_backup_file`. -/
  backupWrite : Except String Unit
  /-- outcome of `PATCH /dns-zone/{id}` as a function of the wire payload
  (the link-stripped record list sent as the records body). -/
  patch : List Record → Except String (List Record)
  /-- outcome of the `k`-th `dig` subprocess call. -/
  dig : Nat → Except String (List String)
  /-- `datetime.datetime.now()` at backup time. -/
  now : Timestamp

/-- observable effects of one workflow run, in program order. -/
inductive Event where
  /-- `GET /dns-zone/{id}` issued. -/
  | fetchRecords (zoneId : String)
  /-- backup file written: name, content, and the structured data
  (`zone id`, records, tag) they were rendered from. -/
  | writeBackup (fileName content zoneId : String) (records : List Record) (tag : String)
  /-- `_update_dns_zone_records` called with this record set (the stripping of
  `link` sub-fields happens inside it, on the wire payload). -/
  | patchRecords (zoneId : String) (submitted : List Record)
deriving DecidableEq, Repr

/-- `_update_dns_zone_records`: strip the `link` sub-fields, then PATCH the
resulting payload. -/
def updateDnsZoneRecords (env : Env) (newDnsZoneRecords : List Record) :
    Except String (List Record) :=
  env.patch (stripLinks newDnsZoneRecords)

/-- the outer wrap of `add_txt_record`: any exception becomes one `PluginError`. -/
def addErrWrap (e : String) : String :=
  "Error occurred while trying to add TXT record.\nError text: " ++ e ++ ".\n"

/-- the outer wrap of `delete_txt_record`. -/
def delErrWrap (e : String) : String :=
  "Error occurred while trying to delete TXT record.\nError text: " ++ e ++ ".\n"

/-- `add_txt_record` (the publish workflow), returning its outcome together
with the trace of observable effects: resolve the zone, fetch the record set,
write the `before` backup, append the TXT record, submit the replacement, wait
for propagation. Each effect is attempted in source order and its failure
aborts the rest; the outer `except` wraps any failure into one `PluginError`. -/
def addTxtRecordRun (env : Env) (domain recordName recordContent : String) :
    Except String Unit × List Event :=
  let inner : Except String Unit × List Event :=
    match resolveZoneAdd env.zoneList domain with
    | Except.error e => (Except.error e, [])
    | Except.ok (domainZone, dnsZoneId) =>
      match env.recordsFetch with
      | Except.error e => (Except.error e, [Event.fetchRecords dnsZoneId])
      | Except.ok dnsZoneRecords =>
        let bf := createBackupFile env.now dnsZoneId domainZone dnsZoneRecords (some "before")
        let evs := [Event.fetchRecords dnsZoneId,
                    Event.writeBackup bf.1 bf.2 dnsZoneId dnsZoneRecords "before"]
        match env.backupWrite with
        | Except.error e => (Except.error e, evs)
        | Except.ok _ =>
          let newRecordName := stripZoneSuffix recordName domainZone
          let newDnsZoneRecords := addTxtRecordFn newRecordName recordContent dnsZoneRecords
          let evs := evs ++ [Event.patchRecords dnsZoneId newDnsZoneRecords]
          match updateDnsZoneRecords env newDnsZoneRecords with
          | Except.error e => (Except.error e, evs)
          | Except.ok _ =>
            match waitForRecordPropagation env.dig recordName recordContent with
            | Except.error e => (Except.error e, evs)
            | Except.ok _ => (Except.ok (), evs)
  (inner.1.mapError addErrWrap, inner.2)

/-- `delete_txt_record` (the remove workflow): resolve the zone, fetch the
record set, filter the TXT record out, submit the replacement, then write the
`after` backup. Line 147 passes `dns_zone_records`, not
`new_dns_zone_records` — but by that point the fetched dicts that survived the
filter have been aliased by the comprehension and link-stripped in place by
`_update_dns_zone_records`, so the snapshot holds `delBackupRecords`, not the
pristine fetched set. No propagation wait. -/
def deleteTxtRecordRun (env : Env) (domain recordName recordContent : String) :
    Except String Unit × List Event :=
  let inner : Except String Unit × List Event :=
    match resolveZoneDel env.zoneList domain with
    | Except.error e => (Except.error e, [])
    | Except.ok (domainZone, dnsZoneId) =>
      match env.recordsFetch with
      | Except.error e => (Except.error e, [Event.fetchRecords dnsZoneId])
      | Except.ok dnsZoneRecords =>
        let newRecordName := stripZoneSuffix recordName domainZone
        let newDnsZoneRecords := deleteTxtRecordFn newRecordName recordContent dnsZoneRecords
        let evs := [Event.fetchRecords dnsZoneId,
                    Event.patchRecords dnsZoneId newDnsZoneRecords]
        match updateDnsZoneRecords env newDnsZoneRecords with
        | Except.error e => (Except.error e, evs)
        | Except.ok _ =>
          let backupRecords := delBackupRecords newRecordName recordContent dnsZoneRecords
          let bf := createBackupFile env.now dnsZoneId domainZone backupRecords (some "after")
          let evs := evs ++ [Event.writeBackup bf.1 bf.2 dnsZoneId backupRecords "after"]
          match env.backupWrite with
          | Except.error e => (Except.error e, evs)
          | Except.ok _ => (Except.ok (), evs)
  (inner.1.mapError delErrWrap, inner.2)

/-! ## Abbreviations for workflow observables -/

/-- the record set the publish workflow passes to `_update_dns_zone_records`:
the fetched set with the new TXT record appended under the zone-relative name. -/
def publishPayload (recordName recordContent domainZone : String) (recs : List Record) :
    List Record :=
  addTxtRecordFn (stripZoneSuffix recordName domainZone) recordContent recs

/-- the record set the remove workflow passes to `_update_dns_zone_records`. -/
def removePayload (recordName recordContent domainZone : String) (recs : List Record) :
    List Record :=
  deleteTxtRecordFn (stripZoneSuffix recordName domainZone) recordContent recs

/-- the `before` snapshot event of the publish workflow. -/
def beforeBackupEvent (env : Env) (dnsZoneId domainZone : String) (recs : List Record) :
    Event :=
  Event.writeBackup (createBackupFile env.now dnsZoneId domainZone recs (some "before")).1
    (createBackupFile env.now dnsZoneId domainZone recs (some "before")).2
    dnsZoneId recs "before"

/-- the `after` snapshot event of the remove workflow. -/
def afterBackupEvent (env : Env) (dnsZoneId domainZone : String) (recs : List Record) :
    Event :=
  Event.writeBackup (createBackupFile env.now dnsZoneId domainZone recs (some "after")).1
    (createBackupFile env.now dnsZoneId domainZone recs (some "after")).2
    dnsZoneId recs "after"

/-! ## Spec-side predicates and concrete fixtures -/

/-- the spec notion for claim C1: the suffix of `domain` obtained by stripping
`i` leftmost labels exists and exactly matches the name of a zone in the
listing. -/
def zoneSuffixMatch (zones : List DnsZone) (domain : String) (i : Nat) : Prop :=
  ∃ dz, stripLeftLabels i domain = some dz ∧ ∃ z ∈ zones, z.name = dz

/-- whether the object stored under `key` in a record still carries a `link`
sub-field. -/
def refHasLink (r : Record) (key : String) : Bool :=
  match r.lookup key with
  | some (JVal.jobj fields) => (fields.lookup "link").isSome
  | _ => false

/-- fixture: a record carrying both a `configRef` and a `targetGroupRef`,
each with a `link` sub-field. -/
def bothRefsRecord : Record :=
  [("configRef", JVal.jobj [("link", "L"), ("id", "1")]),
   ("targetGroupRef", JVal.jobj [("link", "M"), ("id", "2")])]

/-- fixture: a record carrying only a `configRef` with a `link` sub-field. -/
def cfgOnlyRecord : Record :=
  [("configRef", JVal.jobj [("link", "L"), ("id", "1")]), ("ttl", JVal.jint 60)]

/-- fixture: a one-zone listing. -/
def zones0 : List DnsZone := [⟨"a.b", "z1"⟩]

/-- fixture: an unrelated A record. -/
def rec0 : Record :=
  [("name", JVal.jstr "w"), ("type", JVal.jstr "A"), ("data", JVal.jstr "9")]

/-- fixture: an environment in which every step succeeds; the single `dig`
answer line `xvx` strips to the TXT value `v`. -/
def env0 : Env :=
  ⟨Except.ok zones0, Except.ok [rec0], Except.ok (), fun _ => Except.ok [],
   fun _ => Except.ok ["xvx"], ⟨2026, 1, 2, 3, 4, 5⟩⟩

/-- fixture: a surviving record that carries a `configRef` with a `link`
sub-field. -/
def recRef : Record :=
  [("name", JVal.jstr "w"), ("configRef", JVal.jobj [("link", "L"), ("id", "1")])]

/-- fixture: a fetched record set holding a link-carrying survivor and the
challenge TXT record `{data: v, name: c, type: TXT}` to be removed. -/
def recsRef : List Record := [recRef, mkTxtRecord "c" "v"]

/-- fixture: like `env0`, but the fetched set is `recsRef`. -/
def env2 : Env :=
  ⟨Except.ok zones0, Except.ok recsRef, Except.ok (),
   fun _ => Except.ok [], fun _ => Except.ok ["xvx"], ⟨2026, 1, 2, 3, 4, 5⟩⟩

/-! # Helper lemmas -/

/-- a successful association-list lookup names an entry of the list. -/
theorem lookup_mem {β : Type} {l : List (String × β)} {k : String} {v : β}
    (h : l.lookup k = some v) : (k, v) ∈ l := by
  induction l with
  | nil => simp [List.lookup] at h
  | cons p t ih =>
    rcases p with ⟨k2, v2⟩
    rw [List.lookup_cons] at h
    by_cases hk : (k == k2)
    · simp [hk] at h
      subst h
      simp [(by simpa using hk : k = k2)]
    · simp [hk] at h
      exact List.mem_cons_of_mem _ (ih h)

/-- the record literal built by the helpers is Python-equal to itself. -/
theorem recordEqTriple_mkTxtRecord (recordName recordData : String) :
    recordEqTriple recordName recordData (mkTxtRecord recordName recordData) = true := by
  simp [recordEqTriple, mkTxtRecord, List.lookup]

/-! # C6 -/

/-- C6: for every record set that contains no record Python-equal to
`{name: recordName, type: TXT, data: recordValue}`, `_delete_txt_record`
returns the set unchanged — removing a non-existent record is a no-op (the
function is total, so it is never an error). -/
theorem delete_nonexistent_is_noop (recordName recordData : String)
    (recs : List Record)
    (h : ∀ r ∈ recs, recordEqTriple recordName recordData r = false) :
    deleteTxtRecordFn recordName recordData recs = recs := by
  unfold deleteTxtRecordFn
  refine List.filter_eq_self.mpr ?_
  intro r hr
  simp [h r hr]

/-- C6 witness: removing an absent TXT record from a one-record set leaves it
unchanged. -/
theorem delete_nonexistent_is_noop_witness :
    deleteTxtRecordFn "n" "v" [rec0] = [rec0] :=
  delete_nonexistent_is_noop "n" "v" [rec0] (by decide)

/-! # C3 -/

/-- C3 counterexample: on a record set that already contains a record equal to
the TXT triple, `_add_txt_record` followed by `_delete_txt_record` with the
same name and value does not restore the original record set even up to
permutation — the filter deletes the pre-existing copy too. -/
theorem add_then_delete_not_inverse :
    ¬ (deleteTxtRecordFn "n" "v" (addTxtRecordFn "n" "v" [mkTxtRecord "n" "v"])).Perm
        [mkTxtRecord "n" "v"] := by
  decide

/-- C3 amended: provided the original record set contains no record
Python-equal to `{name: recordName, type: TXT, data: recordValue}`,
`_add_txt_record` followed by `_delete_txt_record` with the identical name and
value restores the original record set exactly (hence also up to
order-insensitive equality). -/
theorem add_then_delete_restores (recordName recordData : String)
    (recs : List Record)
    (h : ∀ r ∈ recs, recordEqTriple recordName recordData r = false) :
    deleteTxtRecordFn recordName recordData
        (addTxtRecordFn recordName recordData recs) = recs := by
  unfold addTxtRecordFn deleteTxtRecordFn
  rw [List.filter_append]
  have h1 : recs.filter (fun r => !(recordEqTriple recordName recordData r)) = recs := by
    refine List.filter_eq_self.mpr ?_
    intro r hr
    simp [h r hr]
  have h2 : ([mkTxtRecord recordName recordData]).filter
      (fun r => !(recordEqTriple recordName recordData r)) = [] := by
    simp [recordEqTriple_mkTxtRecord]
  rw [h1, h2, List.append_nil]

/-- C3 amended witness: add-then-delete of `(n, v)` on a set holding only an
unrelated record restores that set. -/
theorem add_then_delete_restores_witness :
    deleteTxtRecordFn "n" "v" (addTxtRecordFn "n" "v" [rec0]) = [rec0] :=
  add_then_delete_restores "n" "v" [rec0] (by decide)

/-! # C10 -/

/-- C10: `_delete_txt_record` removes a record only when the record as a whole
is Python-equal to the three-field mapping: a record whose `name`, `type` and
`data` fields all match but which carries any additional field is never
removed (it survives into the filtered record set). -/
theorem delete_spares_records_with_extra_fields (recordName recordData : String)
    (recs : List Record) (r : Record) (hr : r ∈ recs)
    (hname : r.lookup "name" = some (JVal.jstr recordName))
    (htype : r.lookup "type" = some (JVal.jstr "TXT"))
    (hdata : r.lookup "data" = some (JVal.jstr recordData))
    (k : String) (w : JVal) (hkw : (k, w) ∈ r)
    (hk1 : k ≠ "name") (hk2 : k ≠ "type") (hk3 : k ≠ "data") :
    r ∈ deleteTxtRecordFn recordName recordData recs := by
  have hm1 := lookup_mem hdata
  have hm2 := lookup_mem hname
  have hm3 := lookup_mem htype
  have hnodup : (([("data", JVal.jstr recordData), ("name", JVal.jstr recordName),
      ("type", JVal.jstr "TXT"), (k, w)]) : List (String × JVal)).Nodup := by
    refine List.nodup_cons.mpr ⟨?_, List.nodup_cons.mpr ⟨?_,
      List.nodup_cons.mpr ⟨?_, List.nodup_singleton _⟩⟩⟩
    · intro hmem
      simp only [List.mem_cons, List.not_mem_nil, or_false] at hmem
      rcases hmem with h | h | h
      · exact absurd h (by simp)
      · exact absurd h (by simp)
      · exact hk3 ((Prod.ext_iff.mp h).1).symm
    · intro hmem
      simp only [List.mem_cons, List.not_mem_nil, or_false] at hmem
      rcases hmem with h | h
      · exact absurd h (by simp)
      · exact hk1 ((Prod.ext_iff.mp h).1).symm
    · intro hmem
      simp only [List.mem_cons, List.not_mem_nil, or_false] at hmem
      exact hk2 ((Prod.ext_iff.mp hmem).1).symm
  have hsub : (([("data", JVal.jstr recordData), ("name", JVal.jstr recordName),
      ("type", JVal.jstr "TXT"), (k, w)]) : List (String × JVal)) ⊆ r := by
    intro x hx
    simp only [List.mem_cons, List.not_mem_nil, or_false] at hx
    rcases hx with h | h | h | h <;> subst h
    · exact hm1
    · exact hm2
    · exact hm3
    · exact hkw
  have hlen : 4 ≤ r.length := by
    simpa using (List.subperm_of_subset hnodup hsub).length_le
  have hne : recordEqTriple recordName recordData r = false := by
    unfold recordEqTriple
    have hl3 : (r.length == 3) = false := by
      simp only [beq_eq_false_iff_ne, ne_eq]
      omega
    simp [hl3]
  exact List.mem_filter.mpr ⟨hr, by simp [hne]⟩

/-- C10 witness: a record with matching `name`/`type`/`data` plus a `ttl`
field survives the deletion. -/
theorem delete_spares_records_with_extra_fields_witness :
    (([("data", JVal.jstr "v"), ("name", JVal.jstr "n"), ("type", JVal.jstr "TXT"),
        ("ttl", JVal.jint 60)]) : Record) ∈
      deleteTxtRecordFn "n" "v"
        [[("data", JVal.jstr "v"), ("name", JVal.jstr "n"), ("type", JVal.jstr "TXT"),
          ("ttl", JVal.jint 60)]] :=
  delete_spares_records_with_extra_fields "n" "v" _ _ (by decide) (by decide) (by decide)
    (by decide) "ttl" (JVal.jint 60) (by decide) (by decide) (by decide) (by decide)

/-! # C4 -/

/-- rewriting the value under `key` changes the lookup of `key` by `popLink`. -/
theorem lookup_popLinkAt_same (key : String) (r : Record) :
    (popLinkAt key r).lookup key = (r.lookup key).map popLink := by
  induction r with
  | nil => rfl
  | cons p t ih =>
    rcases p with ⟨k2, v2⟩
    by_cases h : k2 = key
    · subst h
      simp [popLinkAt, List.lookup_cons]
    · have hb : (key == k2) = false := beq_eq_false_iff_ne.mpr (Ne.symm h)
      simp only [popLinkAt, List.map_cons, if_neg h, List.lookup_cons, hb]
      simpa [popLinkAt] using ih

/-- rewriting the value under `key` leaves every other lookup unchanged. -/
theorem lookup_popLinkAt_other (key k : String) (hk : k ≠ key) (r : Record) :
    (popLinkAt key r).lookup k = r.lookup k := by
  induction r with
  | nil => rfl
  | cons p t ih =>
    rcases p with ⟨k2, v2⟩
    unfold popLinkAt
    rw [List.map_cons]
    by_cases h : k2 = key
    · rw [if_pos (by simp [h])]
      rw [List.lookup_cons, List.lookup_cons]
      have hb : (k == k2) = false := beq_eq_false_iff_ne.mpr (by rw [h]; exact hk)
      rw [hb]
      simpa [popLinkAt] using ih
    · rw [if_neg (by simp [h])]
      rw [List.lookup_cons, List.lookup_cons]
      rcases hkk : (k == k2) with _ | _
      · simpa [popLinkAt] using ih
      · rfl

/-- filtering the `link` key out of an object leaves no `link` entry behind. -/
theorem filter_link_lookup_none (fields : List (String × String)) :
    (fields.filter (fun kv => kv.1 != "link")).lookup "link" = none := by
  induction fields with
  | nil => rfl
  | cons p t ih =>
    rcases p with ⟨k2, v2⟩
    by_cases h : k2 = "link"
    · simp [h, ih]
    · have hb : ("link" == k2) = false := beq_eq_false_iff_ne.mpr (Ne.symm h)
      simp [h, List.lookup_cons, hb, ih]

/-- C4 counterexample: on a record carrying both a `configRef` and a
`targetGroupRef` the stripping performed before submission removes the `link`
sub-field of `configRef` only — the `targetGroupRef` entry still carries its
`link`, contradicting the claim that both are stripped. -/
theorem strip_links_misses_targetGroupRef :
    refHasLink bothRefsRecord "configRef" = true ∧
    refHasLink bothRefsRecord "targetGroupRef" = true ∧
    refHasLink (stripRecordRefLink bothRefsRecord) "configRef" = false ∧
    refHasLink (stripRecordRefLink bothRefsRecord) "targetGroupRef" = true := by
  decide

/-- C4 amended: the submission logic strips the `link` sub-field from the
`configRef` entry when one is present, and otherwise from the
`targetGroupRef` entry when one is present (a record carrying both keeps the
`link` of its `targetGroupRef`); every field other than the stripped one is
left unchanged, no entry is added or removed, and inside the stripped object
only the `link` sub-field is dropped. -/
theorem strip_links_amended (r : Record) :
    ((r.lookup "configRef").isSome →
      (∀ fields, r.lookup "configRef" = some (JVal.jobj fields) →
        (stripRecordRefLink r).lookup "configRef"
          = some (JVal.jobj (fields.filter (fun kv => kv.1 != "link")))) ∧
      (∀ k, k ≠ "configRef" → (stripRecordRefLink r).lookup k = r.lookup k)) ∧
    (r.lookup "configRef" = none → (r.lookup "targetGroupRef").isSome →
      (∀ fields, r.lookup "targetGroupRef" = some (JVal.jobj fields) →
        (stripRecordRefLink r).lookup "targetGroupRef"
          = some (JVal.jobj (fields.filter (fun kv => kv.1 != "link")))) ∧
      (∀ k, k ≠ "targetGroupRef" → (stripRecordRefLink r).lookup k = r.lookup k)) ∧
    (r.lookup "configRef" = none → r.lookup "targetGroupRef" = none →
      stripRecordRefLink r = r) ∧
    (∀ fields : List (String × String),
      (fields.filter (fun kv => kv.1 != "link")).lookup "link" = none ∧
      ∀ kv ∈ fields, kv.1 ≠ "link" → kv ∈ fields.filter (fun kv2 => kv2.1 != "link")) ∧
    (stripRecordRefLink r).length = r.length := by
  refine ⟨?_, ?_, ?_, ?_, ?_⟩
  · intro hsome
    unfold stripRecordRefLink
    rw [if_pos hsome]
    constructor
    · intro fields hf
      rw [lookup_popLinkAt_same, hf]
      rfl
    · intro k hk
      exact lookup_popLinkAt_other "configRef" k hk r
  · intro hnone hsome
    unfold stripRecordRefLink
    rw [if_neg (by simp [hnone]), if_pos hsome]
    constructor
    · intro fields hf
      rw [lookup_popLinkAt_same, hf]
      rfl
    · intro k hk
      exact lookup_popLinkAt_other "targetGroupRef" k hk r
  · intro h1 h2
    unfold stripRecordRefLink
    rw [if_neg (by simp [h1]), if_neg (by simp [h2])]
  · intro fields
    refine ⟨filter_link_lookup_none fields, ?_⟩
    intro kv hkv hne
    exact List.mem_filter.mpr ⟨hkv, by simp [hne]⟩
  · unfold stripRecordRefLink
    split_ifs <;> simp [popLinkAt]

/-- C4 amended witness: on a record with only a `configRef`, stripping removes
exactly the `link` sub-field and leaves the `ttl` field unchanged. -/
theorem strip_links_amended_witness :
    (stripRecordRefLink cfgOnlyRecord).lookup "configRef"
        = some (JVal.jobj [("id", "1")]) ∧
    (stripRecordRefLink cfgOnlyRecord).lookup "ttl" = some (JVal.jint 60) := by
  have h := strip_links_amended cfgOnlyRecord
  have h1 := (h.1 (by decide)).1 [("link", "L"), ("id", "1")] (by decide)
  have h2 := (h.1 (by decide)).2 "ttl" (by decide)
  constructor
  · rw [h1]
    decide
  · rw [h2]
    decide

/-! # Workflow characterization lemmas

One equation per failure point, obtained by running the workflow definition
under the given step outcomes. -/

theorem addRun_resolve_err (env : Env) (d rn rc e : String)
    (hz : resolveZoneAdd env.zoneList d = Except.error e) :
    addTxtRecordRun env d rn rc = (Except.error (addErrWrap e), []) := by
  simp only [addTxtRecordRun, hz, Except.mapError]

theorem addRun_fetch_err (env : Env) (d rn rc dz zid e : String)
    (hz : resolveZoneAdd env.zoneList d = Except.ok (dz, zid))
    (hf : env.recordsFetch = Except.error e) :
    addTxtRecordRun env d rn rc =
      (Except.error (addErrWrap e), [Event.fetchRecords zid]) := by
  simp only [addTxtRecordRun, hz, hf, Except.mapError]

theorem addRun_backup_err (env : Env) (d rn rc dz zid e : String) (recs : List Record)
    (hz : resolveZoneAdd env.zoneList d = Except.ok (dz, zid))
    (hf : env.recordsFetch = Except.ok recs)
    (hb : env.backupWrite = Except.error e) :
    addTxtRecordRun env d rn rc =
      (Except.error (addErrWrap e),
       [Event.fetchRecords zid, beforeBackupEvent env zid dz recs]) := by
  simp only [addTxtRecordRun, beforeBackupEvent, hz, hf, hb, Except.mapError]

theorem addRun_update_err (env : Env) (d rn rc dz zid e : String) (recs : List Record)
    (hz : resolveZoneAdd env.zoneList d = Except.ok (dz, zid))
    (hf : env.recordsFetch = Except.ok recs)
    (hb : env.backupWrite = Except.ok ())
    (hu : updateDnsZoneRecords env (addTxtRecordFn (stripZoneSuffix rn dz) rc recs)
        = Except.error e) :
    addTxtRecordRun env d rn rc =
      (Except.error (addErrWrap e),
       [Event.fetchRecords zid, beforeBackupEvent env zid dz recs,
        Event.patchRecords zid (addTxtRecordFn (stripZoneSuffix rn dz) rc recs)]) := by
  simp only [addTxtRecordRun, beforeBackupEvent, hz, hf, hb, hu, Except.mapError, List.cons_append, List.nil_append]

theorem addRun_wait_err (env : Env) (d rn rc dz zid e : String) (recs u : List Record)
    (hz : resolveZoneAdd env.zoneList d = Except.ok (dz, zid))
    (hf : env.recordsFetch = Except.ok recs)
    (hb : env.backupWrite = Except.ok ())
    (hu : updateDnsZoneRecords env (addTxtRecordFn (stripZoneSuffix rn dz) rc recs)
        = Except.ok u)
    (hw : waitForRecordPropagation env.dig rn rc = Except.error e) :
    addTxtRecordRun env d rn rc =
      (Except.error (addErrWrap e),
       [Event.fetchRecords zid, beforeBackupEvent env zid dz recs,
        Event.patchRecords zid (addTxtRecordFn (stripZoneSuffix rn dz) rc recs)]) := by
  simp only [addTxtRecordRun, beforeBackupEvent, hz, hf, hb, hu, hw, Except.mapError, List.cons_append, List.nil_append]

theorem addRun_all_ok (env : Env) (d rn rc dz zid : String) (recs u : List Record)
    (w : Nat × Nat)
    (hz : resolveZoneAdd env.zoneList d = Except.ok (dz, zid))
    (hf : env.recordsFetch = Except.ok recs)
    (hb : env.backupWrite = Except.ok ())
    (hu : updateDnsZoneRecords env (addTxtRecordFn (stripZoneSuffix rn dz) rc recs)
        = Except.ok u)
    (hw : waitForRecordPropagation env.dig rn rc = Except.ok w) :
    addTxtRecordRun env d rn rc =
      (Except.ok (),
       [Event.fetchRecords zid, beforeBackupEvent env zid dz recs,
        Event.patchRecords zid (addTxtRecordFn (stripZoneSuffix rn dz) rc recs)]) := by
  simp only [addTxtRecordRun, beforeBackupEvent, hz, hf, hb, hu, hw, Except.mapError, List.cons_append, List.nil_append]

theorem delRun_resolve_err (env : Env) (d rn rc e : String)
    (hz : resolveZoneDel env.zoneList d = Except.error e) :
    deleteTxtRecordRun env d rn rc = (Except.error (delErrWrap e), []) := by
  simp only [deleteTxtRecordRun, hz, Except.mapError]

theorem delRun_fetch_err (env : Env) (d rn rc dz zid e : String)
    (hz : resolveZoneDel env.zoneList d = Except.ok (dz, zid))
    (hf : env.recordsFetch = Except.error e) :
    deleteTxtRecordRun env d rn rc =
      (Except.error (delErrWrap e), [Event.fetchRecords zid]) := by
  simp only [deleteTxtRecordRun, hz, hf, Except.mapError]

theorem delRun_update_err (env : Env) (d rn rc dz zid e : String) (recs : List Record)
    (hz : resolveZoneDel env.zoneList d = Except.ok (dz, zid))
    (hf : env.recordsFetch = Except.ok recs)
    (hu : updateDnsZoneRecords env (deleteTxtRecordFn (stripZoneSuffix rn dz) rc recs)
        = Except.error e) :
    deleteTxtRecordRun env d rn rc =
      (Except.error (delErrWrap e),
       [Event.fetchRecords zid,
        Event.patchRecords zid (deleteTxtRecordFn (stripZoneSuffix rn dz) rc recs)]) := by
  simp only [deleteTxtRecordRun, hz, hf, hu, Except.mapError, List.cons_append, List.nil_append]

theorem delRun_backup_err (env : Env) (d rn rc dz zid e : String) (recs u : List Record)
    (hz : resolveZoneDel env.zoneList d = Except.ok (dz, zid))
    (hf : env.recordsFetch = Except.ok recs)
    (hu : updateDnsZoneRecords env (deleteTxtRecordFn (stripZoneSuffix rn dz) rc recs)
        = Except.ok u)
    (hb : env.backupWrite = Except.error e) :
    deleteTxtRecordRun env d rn rc =
      (Except.error (delErrWrap e),
       [Event.fetchRecords zid,
        Event.patchRecords zid (deleteTxtRecordFn (stripZoneSuffix rn dz) rc recs),
        afterBackupEvent env zid dz (delBackupRecords (stripZoneSuffix rn dz) rc recs)]) := by
  simp only [deleteTxtRecordRun, afterBackupEvent, hz, hf, hu, hb, Except.mapError,
    List.cons_append, List.nil_append]

theorem delRun_all_ok (env : Env) (d rn rc dz zid : String) (recs u : List Record)
    (hz : resolveZoneDel env.zoneList d = Except.ok (dz, zid))
    (hf : env.recordsFetch = Except.ok recs)
    (hu : updateDnsZoneRecords env (deleteTxtRecordFn (stripZoneSuffix rn dz) rc recs)
        = Except.ok u)
    (hb : env.backupWrite = Except.ok ()) :
    deleteTxtRecordRun env d rn rc =
      (Except.ok (),
       [Event.fetchRecords zid,
        Event.patchRecords zid (deleteTxtRecordFn (stripZoneSuffix rn dz) rc recs),
        afterBackupEvent env zid dz (delBackupRecords (stripZoneSuffix rn dz) rc recs)]) := by
  simp only [deleteTxtRecordRun, afterBackupEvent, hz, hf, hu, hb, Except.mapError,
    List.cons_append, List.nil_append]

/-- any patch event emitted by the publish workflow carries the fetched record
set with the new TXT record appended. -/
theorem addRun_patch_payload (env : Env) (d rn rc dz zid : String) (recs : List Record)
    (hz : resolveZoneAdd env.zoneList d = Except.ok (dz, zid))
    (hf : env.recordsFetch = Except.ok recs) :
    ∀ zid2 p, Event.patchRecords zid2 p ∈ (addTxtRecordRun env d rn rc).2 →
      zid2 = zid ∧ p = addTxtRecordFn (stripZoneSuffix rn dz) rc recs := by
  intro zid2 p hp
  rcases hb : env.backupWrite with e | u
  · rw [addRun_backup_err env d rn rc dz zid e recs hz hf hb] at hp
    simp [beforeBackupEvent] at hp
  · cases u
    rcases hu : updateDnsZoneRecords env (addTxtRecordFn (stripZoneSuffix rn dz) rc recs)
      with e | u2
    · rw [addRun_update_err env d rn rc dz zid e recs hz hf hb hu] at hp
      simp [beforeBackupEvent] at hp
      exact hp
    · rcases hw : waitForRecordPropagation env.dig rn rc with e | w
      · rw [addRun_wait_err env d rn rc dz zid e recs u2 hz hf hb hu hw] at hp
        simp [beforeBackupEvent] at hp
        exact hp
      · rw [addRun_all_ok env d rn rc dz zid recs u2 w hz hf hb hu hw] at hp
        simp [beforeBackupEvent] at hp
        exact hp

/-- success of the publish workflow is equivalent to the success of every one
of its steps. -/
theorem addRun_ok_iff (env : Env) (d rn rc : String) :
    (addTxtRecordRun env d rn rc).1 = Except.ok () ↔
      ∃ dz zid recs u w,
        resolveZoneAdd env.zoneList d = Except.ok (dz, zid) ∧
        env.recordsFetch = Except.ok recs ∧
        env.backupWrite = Except.ok () ∧
        updateDnsZoneRecords env (addTxtRecordFn (stripZoneSuffix rn dz) rc recs)
          = Except.ok u ∧
        waitForRecordPropagation env.dig rn rc = Except.ok w := by
  constructor
  · intro h
    rcases hz : resolveZoneAdd env.zoneList d with e | ⟨dz, zid⟩
    · rw [addRun_resolve_err env d rn rc e hz] at h
      simp at h
    · rcases hf : env.recordsFetch with e | recs
      · rw [addRun_fetch_err env d rn rc dz zid e hz hf] at h
        simp at h
      · rcases hb : env.backupWrite with e | u
        · rw [addRun_backup_err env d rn rc dz zid e recs hz hf hb] at h
          simp at h
        · cases u
          rcases hu : updateDnsZoneRecords env
              (addTxtRecordFn (stripZoneSuffix rn dz) rc recs) with e | u2
          · rw [addRun_update_err env d rn rc dz zid e recs hz hf hb hu] at h
            simp at h
          · rcases hw : waitForRecordPropagation env.dig rn rc with e | w
            · rw [addRun_wait_err env d rn rc dz zid e recs u2 hz hf hb hu hw] at h
              simp at h
            · exact ⟨dz, zid, recs, u2, w, rfl, rfl, rfl, hu, rfl⟩
  · rintro ⟨dz, zid, recs, u, w, hz, hf, hb, hu, hw⟩
    rw [addRun_all_ok env d rn rc dz zid recs u w hz hf hb hu hw]

/-- success of the remove workflow is equivalent to the success of every one
of its steps. -/
theorem delRun_ok_iff (env : Env) (d rn rc : String) :
    (deleteTxtRecordRun env d rn rc).1 = Except.ok () ↔
      ∃ dz zid recs u,
        resolveZoneDel env.zoneList d = Except.ok (dz, zid) ∧
        env.recordsFetch = Except.ok recs ∧
        updateDnsZoneRecords env (deleteTxtRecordFn (stripZoneSuffix rn dz) rc recs)
          = Except.ok u ∧
        env.backupWrite = Except.ok () := by
  constructor
  · intro h
    rcases hz : resolveZoneDel env.zoneList d with e | ⟨dz, zid⟩
    · rw [delRun_resolve_err env d rn rc e hz] at h
      simp at h
    · rcases hf : env.recordsFetch with e | recs
      · rw [delRun_fetch_err env d rn rc dz zid e hz hf] at h
        simp at h
      · rcases hu : updateDnsZoneRecords env
            (deleteTxtRecordFn (stripZoneSuffix rn dz) rc recs) with e | u2
        · rw [delRun_update_err env d rn rc dz zid e recs hz hf hu] at h
          simp at h
        · rcases hb : env.backupWrite with e | u
          · rw [delRun_backup_err env d rn rc dz zid e recs u2 hz hf hu hb] at h
            simp at h
          · cases u
            exact ⟨dz, zid, recs, u2, rfl, rfl, hu, rfl⟩
  · rintro ⟨dz, zid, recs, u, hz, hf, hu, hb⟩
    rw [delRun_all_ok env d rn rc dz zid recs u hz hf hu hb]

/-- the publish workflow returns either success or one error wrapped by the
outer `PluginError` text. -/
theorem addRun_outcome_shape (env : Env) (d rn rc : String) :
    (addTxtRecordRun env d rn rc).1 = Except.ok () ∨
      ∃ c, (addTxtRecordRun env d rn rc).1 = Except.error (addErrWrap c) := by
  have hx : ∃ x : Except String Unit,
      (addTxtRecordRun env d rn rc).1 = Except.mapError addErrWrap x := by
    unfold addTxtRecordRun
    exact ⟨_, rfl⟩
  obtain ⟨x, hx⟩ := hx
  rcases x with e | u
  · exact Or.inr ⟨e, hx⟩
  · cases u
    exact Or.inl hx

/-- the remove workflow returns either success or one error wrapped by the
outer `PluginError` text. -/
theorem delRun_outcome_shape (env : Env) (d rn rc : String) :
    (deleteTxtRecordRun env d rn rc).1 = Except.ok () ∨
      ∃ c, (deleteTxtRecordRun env d rn rc).1 = Except.error (delErrWrap c) := by
  have hx : ∃ x : Except String Unit,
      (deleteTxtRecordRun env d rn rc).1 = Except.mapError delErrWrap x := by
    unfold deleteTxtRecordRun
    exact ⟨_, rfl⟩
  obtain ⟨x, hx⟩ := hx
  rcases x with e | u
  · exact Or.inr ⟨e, hx⟩
  · cases u
    exact Or.inl hx

/-! # C2 -/

/-- C2: the record set the publish workflow submits for replacement is exactly
the fetched record set with the single new entry
`{name: recordName, type: TXT, data: recordValue}` appended at the end (the
name made zone-relative first, as the source does); every previously fetched
record is contained in the resubmission, and no deduplication occurs — a
repeated publish of identical content appends a second identical entry. -/
theorem publish_appends_exactly_one_record (env : Env)
    (domain recordName recordContent domainZone dnsZoneId : String) (recs : List Record)
    (hz : resolveZoneAdd env.zoneList domain = Except.ok (domainZone, dnsZoneId))
    (hf : env.recordsFetch = Except.ok recs) :
    (∀ zid p,
        Event.patchRecords zid p ∈ (addTxtRecordRun env domain recordName recordContent).2 →
        p = recs ++ [mkTxtRecord (stripZoneSuffix recordName domainZone) recordContent]) ∧
    publishPayload recordName recordContent domainZone recs
      = recs ++ [mkTxtRecord (stripZoneSuffix recordName domainZone) recordContent] ∧
    (∀ r ∈ recs, r ∈ publishPayload recordName recordContent domainZone recs) ∧
    addTxtRecordFn (stripZoneSuffix recordName domainZone) recordContent
        (publishPayload recordName recordContent domainZone recs)
      = recs ++ [mkTxtRecord (stripZoneSuffix recordName domainZone) recordContent,
          mkTxtRecord (stripZoneSuffix recordName domainZone) recordContent] := by
  refine ⟨?_, rfl, ?_, ?_⟩
  · intro zid p hp
    exact (addRun_patch_payload env domain recordName recordContent domainZone dnsZoneId
      recs hz hf zid p hp).2
  · intro r hr
    exact List.mem_append_left _ hr
  · simp [publishPayload, addTxtRecordFn]

/-- C2 witness: with the fixture environment the publish payload for value `v`
is the fetched single-record set plus one new TXT record, and appending again
duplicates it. -/
theorem publish_appends_exactly_one_record_witness :
    publishPayload "c.a.b" "v" "a.b" [rec0]
        = [rec0] ++ [mkTxtRecord (stripZoneSuffix "c.a.b" "a.b") "v"] ∧
    addTxtRecordFn (stripZoneSuffix "c.a.b" "a.b") "v" (publishPayload "c.a.b" "v" "a.b" [rec0])
        = [rec0] ++ [mkTxtRecord (stripZoneSuffix "c.a.b" "a.b") "v",
            mkTxtRecord (stripZoneSuffix "c.a.b" "a.b") "v"] :=
  ⟨(publish_appends_exactly_one_record env0 "c.a.b" "c.a.b" "v" "a.b" "z1" [rec0]
      (by decide) (by decide)).2.1,
   (publish_appends_exactly_one_record env0 "c.a.b" "c.a.b" "v" "a.b" "z1" [rec0]
      (by decide) (by decide)).2.2.2⟩

/-! # C7 -/

/-- C7: each of the two entry points either completes successfully or produces
exactly one descriptive failure, the outer `PluginError` whose text combines
the failure stage (add or delete) with the text of the underlying cause; and
success is equivalent to the success of every internal step, so no internal
failure is recovered silently. -/
theorem workflows_fail_loudly (env : Env) (domain recordName recordContent : String) :
    ((addTxtRecordRun env domain recordName recordContent).1 = Except.ok () ∨
      ∃ c, (addTxtRecordRun env domain recordName recordContent).1
          = Except.error (addErrWrap c)) ∧
    ((deleteTxtRecordRun env domain recordName recordContent).1 = Except.ok () ∨
      ∃ c, (deleteTxtRecordRun env domain recordName recordContent).1
          = Except.error (delErrWrap c)) ∧
    ((addTxtRecordRun env domain recordName recordContent).1 = Except.ok () ↔
      ∃ dz zid recs u w,
        resolveZoneAdd env.zoneList domain = Except.ok (dz, zid) ∧
        env.recordsFetch = Except.ok recs ∧
        env.backupWrite = Except.ok () ∧
        updateDnsZoneRecords env
            (addTxtRecordFn (stripZoneSuffix recordName dz) recordContent recs)
          = Except.ok u ∧
        waitForRecordPropagation env.dig recordName recordContent = Except.ok w) ∧
    ((deleteTxtRecordRun env domain recordName recordContent).1 = Except.ok () ↔
      ∃ dz zid recs u,
        resolveZoneDel env.zoneList domain = Except.ok (dz, zid) ∧
        env.recordsFetch = Except.ok recs ∧
        updateDnsZoneRecords env
            (deleteTxtRecordFn (stripZoneSuffix recordName dz) recordContent recs)
          = Except.ok u ∧
        env.backupWrite = Except.ok ()) :=
  ⟨addRun_outcome_shape env domain recordName recordContent,
   delRun_outcome_shape env domain recordName recordContent,
   addRun_ok_iff env domain recordName recordContent,
   delRun_ok_iff env domain recordName recordContent⟩

/-- the publish workflow emits one of four effect traces, depending on where
it stops. -/
theorem addRun_trace_shape (env : Env) (d rn rc : String) :
    (addTxtRecordRun env d rn rc).2 = [] ∨
    (∃ zid, (addTxtRecordRun env d rn rc).2 = [Event.fetchRecords zid]) ∨
    (∃ dz zid recs,
       resolveZoneAdd env.zoneList d = Except.ok (dz, zid) ∧
       env.recordsFetch = Except.ok recs ∧
       ((addTxtRecordRun env d rn rc).2 =
          [Event.fetchRecords zid, beforeBackupEvent env zid dz recs] ∨
        (addTxtRecordRun env d rn rc).2 =
          [Event.fetchRecords zid, beforeBackupEvent env zid dz recs,
           Event.patchRecords zid (addTxtRecordFn (stripZoneSuffix rn dz) rc recs)])) := by
  rcases hz : resolveZoneAdd env.zoneList d with e | ⟨dz, zid⟩
  · left
    rw [addRun_resolve_err env d rn rc e hz]
  · rcases hf : env.recordsFetch with e | recs
    · right; left
      exact ⟨zid, by rw [addRun_fetch_err env d rn rc dz zid e hz hf]⟩
    · right; right
      refine ⟨dz, zid, recs, rfl, rfl, ?_⟩
      rcases hb : env.backupWrite with e | u
      · left
        rw [addRun_backup_err env d rn rc dz zid e recs hz hf hb]
      · cases u
        rcases hu : updateDnsZoneRecords env
            (addTxtRecordFn (stripZoneSuffix rn dz) rc recs) with e | u2
        · right
          rw [addRun_update_err env d rn rc dz zid e recs hz hf hb hu]
        · rcases hw : waitForRecordPropagation env.dig rn rc with e | w
          · right
            rw [addRun_wait_err env d rn rc dz zid e recs u2 hz hf hb hu hw]
          · right
            rw [addRun_all_ok env d rn rc dz zid recs u2 w hz hf hb hu hw]

/-- the remove workflow emits one of four effect traces, depending on where
it stops. -/
theorem delRun_trace_shape (env : Env) (d rn rc : String) :
    (deleteTxtRecordRun env d rn rc).2 = [] ∨
    (∃ zid, (deleteTxtRecordRun env d rn rc).2 = [Event.fetchRecords zid]) ∨
    (∃ dz zid recs,
       resolveZoneDel env.zoneList d = Except.ok (dz, zid) ∧
       env.recordsFetch = Except.ok recs ∧
       ((deleteTxtRecordRun env d rn rc).2 =
          [Event.fetchRecords zid,
           Event.patchRecords zid (deleteTxtRecordFn (stripZoneSuffix rn dz) rc recs)] ∨
        (deleteTxtRecordRun env d rn rc).2 =
          [Event.fetchRecords zid,
           Event.patchRecords zid (deleteTxtRecordFn (stripZoneSuffix rn dz) rc recs),
           afterBackupEvent env zid dz (delBackupRecords (stripZoneSuffix rn dz) rc recs)])) := by
  rcases hz : resolveZoneDel env.zoneList d with e | ⟨dz, zid⟩
  · left
    rw [delRun_resolve_err env d rn rc e hz]
  · rcases hf : env.recordsFetch with e | recs
    · right; left
      exact ⟨zid, by rw [delRun_fetch_err env d rn rc dz zid e hz hf]⟩
    · right; right
      refine ⟨dz, zid, recs, rfl, rfl, ?_⟩
      rcases hu : updateDnsZoneRecords env
          (deleteTxtRecordFn (stripZoneSuffix rn dz) rc recs) with e | u2
      · left
        rw [delRun_update_err env d rn rc dz zid e recs hz hf hu]
      · rcases hb : env.backupWrite with e | u
        · right
          rw [delRun_backup_err env d rn rc dz zid e recs u2 hz hf hu hb]
        · cases u
          right
          rw [delRun_all_ok env d rn rc dz zid recs u2 hz hf hu hb]

/-! # C8 -/

/-- C8: every snapshot written by the publish workflow is tagged `before`,
named `{zoneName}.{timestamp}.{tag}.json` with the timestamp rendered to the
second, and contains the zone id followed by the JSON-serialized record set;
whenever the publish workflow submits the replacement record set, a `before`
snapshot was written strictly earlier. Every snapshot written by the remove
workflow is tagged `after`, has the same name and content shape, and is
written strictly after the replacement submission. -/
theorem backup_snapshot_shape_and_order (env : Env)
    (domain recordName recordContent : String) :
    (∀ i fn c zid brecs tag,
        (addTxtRecordRun env domain recordName recordContent).2.get? i
          = some (Event.writeBackup fn c zid brecs tag) →
        tag = "before" ∧
        (∃ zoneName, fn = zoneName ++ "." ++ formatTimestamp env.now ++ "." ++ "before"
            ++ ".json") ∧
        c = zid ++ "\n" ++ dumpRecords brecs) ∧
    (∀ j zid p,
        (addTxtRecordRun env domain recordName recordContent).2.get? j
          = some (Event.patchRecords zid p) →
        ∃ i, i < j ∧ ∃ fn c zid2 brecs,
          (addTxtRecordRun env domain recordName recordContent).2.get? i
            = some (Event.writeBackup fn c zid2 brecs "before")) ∧
    (∀ i fn c zid brecs tag,
        (deleteTxtRecordRun env domain recordName recordContent).2.get? i
          = some (Event.writeBackup fn c zid brecs tag) →
        tag = "after" ∧
        (∃ zoneName, fn = zoneName ++ "." ++ formatTimestamp env.now ++ "." ++ "after"
            ++ ".json") ∧
        c = zid ++ "\n" ++ dumpRecords brecs ∧
        ∃ j, j < i ∧ ∃ zid2 p,
          (deleteTxtRecordRun env domain recordName recordContent).2.get? j
            = some (Event.patchRecords zid2 p)) := by
  refine ⟨?_, ?_, ?_⟩
  · intro i fn c zid brecs tag hi
    rcases addRun_trace_shape env domain recordName recordContent with
      h | ⟨zid1, h⟩ | ⟨dz, zid1, recs, hz, hf, h | h⟩ <;> rw [h] at hi
    · simp at hi
    · rcases i with _ | i <;> simp at hi
    · rcases i with _ | _ | i <;>
        simp [beforeBackupEvent, createBackupFile] at hi
      obtain ⟨hfn, hc, hzid, hbrecs, htag⟩ := hi
      subst hzid hbrecs
      exact ⟨htag.symm ▸ rfl, ⟨dz, hfn.symm⟩, hc.symm⟩
    · rcases i with _ | _ | _ | i <;>
        simp [beforeBackupEvent, createBackupFile] at hi
      obtain ⟨hfn, hc, hzid, hbrecs, htag⟩ := hi
      subst hzid hbrecs
      exact ⟨htag.symm ▸ rfl, ⟨dz, hfn.symm⟩, hc.symm⟩
  · intro j zid p hj
    rcases addRun_trace_shape env domain recordName recordContent with
      h | ⟨zid1, h⟩ | ⟨dz, zid1, recs, hz, hf, h | h⟩ <;> rw [h] at hj ⊢
    · simp at hj
    · rcases j with _ | j <;> simp at hj
    · rcases j with _ | _ | j <;> simp [beforeBackupEvent] at hj
    · rcases j with _ | _ | _ | j <;> simp [beforeBackupEvent] at hj
      exact ⟨1, by omega,
        (createBackupFile env.now zid1 dz recs (some "before")).1,
        (createBackupFile env.now zid1 dz recs (some "before")).2,
        zid1, recs, rfl⟩
  · intro i fn c zid brecs tag hi
    rcases delRun_trace_shape env domain recordName recordContent with
      h | ⟨zid1, h⟩ | ⟨dz, zid1, recs, hz, hf, h | h⟩ <;> rw [h] at hi ⊢
    · simp at hi
    · rcases i with _ | i <;> simp at hi
    · rcases i with _ | _ | i <;> simp [afterBackupEvent] at hi
    · rcases i with _ | _ | _ | i <;>
        simp [afterBackupEvent, createBackupFile] at hi
      obtain ⟨hfn, hc, hzid, hbrecs, htag⟩ := hi
      subst hzid hbrecs
      refine ⟨htag.symm ▸ rfl, ⟨dz, hfn.symm⟩, hc.symm, 1, by omega,
        zid1, deleteTxtRecordFn (stripZoneSuffix recordName dz) recordContent recs, rfl⟩

/-- C8 witness: in the all-success publish run the replacement submission sits
at trace index 2, and the theorem yields a `before` snapshot strictly earlier. -/
theorem backup_snapshot_shape_and_order_witness :
    ∃ i, i < 2 ∧ ∃ fn c zid2 brecs,
      (addTxtRecordRun env0 "c.a.b" "c.a.b" "v").2.get? i
        = some (Event.writeBackup fn c zid2 brecs "before") :=
  (backup_snapshot_shape_and_order env0 "c.a.b" "c.a.b" "v").2.1 2 "z1"
    (addTxtRecordFn (stripZoneSuffix "c.a.b" "a.b") "v" [rec0]) (by decide)

/-! # C9 -/

/-- C9 counterexample: when a fetched record that survives the deletion
carries a `configRef` link, the `after` snapshot does NOT contain the record
set as fetched: the comprehension in `_delete_txt_record` aliases the fetched
dicts, `_update_dns_zone_records` pops their `link` sub-fields in place before
line 147 runs, and the snapshot written in the remove run of `env2` holds the
link-stripped survivor — a record set different from the fetched one. -/
theorem remove_backup_not_as_fetched :
    (deleteTxtRecordRun env2 "c.a.b" "c.a.b" "v").2.get? 2
      = some (Event.writeBackup
          (createBackupFile env2.now "z1" "a.b"
            (delBackupRecords "c" "v" recsRef) (some "after")).1
          (createBackupFile env2.now "z1" "a.b"
            (delBackupRecords "c" "v" recsRef) (some "after")).2
          "z1" (delBackupRecords "c" "v" recsRef) "after") ∧
    delBackupRecords "c" "v" recsRef ≠ recsRef ∧
    refHasLink recRef "configRef" = true ∧
    (delBackupRecords "c" "v" recsRef).head? = some (stripRecordRefLink recRef) ∧
    refHasLink (stripRecordRefLink recRef) "configRef" = false := by
  decide

/-- C9 amended: the `after` snapshot of the remove workflow contains the
fetched record set with the in-place link stripping applied to every record
that survives the deletion (`delBackupRecords`); every record equal to the
removed TXT triple is still present in it untouched — so the snapshot still
includes the record being removed — and absent from the submitted replacement,
which is the filtered set. When no surviving record is changed by the link
stripping, the snapshot is exactly the set as fetched. -/
theorem remove_backup_records_characterization (env : Env)
    (domain recordName recordContent domainZone dnsZoneId : String) (recs : List Record)
    (hz : resolveZoneDel env.zoneList domain = Except.ok (domainZone, dnsZoneId))
    (hf : env.recordsFetch = Except.ok recs) :
    (∀ fn c zid brecs tag,
        Event.writeBackup fn c zid brecs tag
            ∈ (deleteTxtRecordRun env domain recordName recordContent).2 →
        brecs = delBackupRecords (stripZoneSuffix recordName domainZone) recordContent recs ∧
        c = dnsZoneId ++ "\n" ++ dumpRecords brecs) ∧
    (∀ r ∈ recs,
        recordEqTriple (stripZoneSuffix recordName domainZone) recordContent r = true →
        r ∈ delBackupRecords (stripZoneSuffix recordName domainZone) recordContent recs ∧
        r ∉ deleteTxtRecordFn (stripZoneSuffix recordName domainZone) recordContent recs) ∧
    (∀ zid p,
        Event.patchRecords zid p
            ∈ (deleteTxtRecordRun env domain recordName recordContent).2 →
        p = deleteTxtRecordFn (stripZoneSuffix recordName domainZone) recordContent recs) ∧
    ((∀ r ∈ recs,
        recordEqTriple (stripZoneSuffix recordName domainZone) recordContent r = false →
        stripRecordRefLink r = r) →
      delBackupRecords (stripZoneSuffix recordName domainZone) recordContent recs = recs) := by
  refine ⟨?_, ?_, ?_, ?_⟩
  · intro fn c zid brecs tag hmem
    rcases delRun_trace_shape env domain recordName recordContent with
      h | ⟨zid1, h⟩ | ⟨dz, zid1, recs1, hz1, hf1, h | h⟩ <;> rw [h] at hmem
    · simp at hmem
    · simp at hmem
    · simp [afterBackupEvent] at hmem
    · rw [hz1] at hz
      rw [hf1] at hf
      obtain ⟨hdz, hzid⟩ : dz = domainZone ∧ zid1 = dnsZoneId := by
        have := hz
        simp at this
        exact ⟨this.1, this.2⟩
      obtain hrecs : recs1 = recs := by
        have := hf
        simpa using this
      subst hdz hzid hrecs
      simp [afterBackupEvent, createBackupFile] at hmem
      obtain ⟨hfn, hc, hzid2, hbrecs, htag⟩ := hmem
      subst hbrecs hzid2
      exact ⟨rfl, hc⟩
  · intro r hr htriple
    constructor
    · refine List.mem_map.mpr ⟨r, hr, ?_⟩
      simp [htriple]
    · intro hmem
      have := (List.mem_filter.mp hmem).2
      simp [htriple] at this
  · intro zid p hmem
    rcases delRun_trace_shape env domain recordName recordContent with
      h | ⟨zid1, h⟩ | ⟨dz, zid1, recs1, hz1, hf1, h | h⟩ <;> rw [h] at hmem
    · simp at hmem
    · simp at hmem
    · rw [hz1] at hz
      rw [hf1] at hf
      obtain ⟨hdz, hzid⟩ : dz = domainZone ∧ zid1 = dnsZoneId := by
        have := hz
        simp at this
        exact ⟨this.1, this.2⟩
      obtain hrecs : recs1 = recs := by
        have := hf
        simpa using this
      subst hdz hzid hrecs
      simp at hmem
      exact hmem.2
    · rw [hz1] at hz
      rw [hf1] at hf
      obtain ⟨hdz, hzid⟩ : dz = domainZone ∧ zid1 = dnsZoneId := by
        have := hz
        simp at this
        exact ⟨this.1, this.2⟩
      obtain hrecs : recs1 = recs := by
        have := hf
        simpa using this
      subst hdz hzid hrecs
      simp [afterBackupEvent] at hmem
      exact hmem.2
  · intro hid
    unfold delBackupRecords
    have hpt : ∀ r ∈ recs,
        (if recordEqTriple (stripZoneSuffix recordName domainZone) recordContent r then r
         else stripRecordRefLink r) = id r := by
      intro r hr
      by_cases ht : recordEqTriple (stripZoneSuffix recordName domainZone) recordContent r
        = true
      · simp [ht]
      · have ht2 : recordEqTriple (stripZoneSuffix recordName domainZone) recordContent r
            = false := by simpa using ht
        simp [ht2, hid r hr ht2]
    rw [List.map_congr_left hpt, List.map_id]

/-- C9 amended witness: in the `env2` remove run the challenge record is in
the snapshot record set untouched and absent from the submitted replacement. -/
theorem remove_backup_records_characterization_witness :
    mkTxtRecord "c" "v" ∈ delBackupRecords (stripZoneSuffix "c.a.b" "a.b") "v" recsRef ∧
    mkTxtRecord "c" "v" ∉ deleteTxtRecordFn (stripZoneSuffix "c.a.b" "a.b") "v" recsRef :=
  (remove_backup_records_characterization env2 "c.a.b" "c.a.b" "v" "a.b" "z1" recsRef
      (by decide) (by decide)).2.1 (mkTxtRecord "c" "v") (by decide) (by decide)

/-! # C5 -/

/-- a query result containing the value ends the loop at once. -/
theorem waitLoop_found (dig : Nat → Except String (List String)) (rn rd : String)
    (txt : List String) (c k s : Nat) (hf : rd ∈ txt) :
    waitLoop dig rn rd txt c k s = Except.ok (k, s) := by
  conv_lhs => rw [waitLoop.eq_def]
  simp only [if_pos hf]

/-- the iteration that drives the counter from 1 to 0 raises the timeout
without examining its own fresh query. -/
theorem waitLoop_last (vals : Nat → List String) (rn rd : String)
    (txt : List String) (k s : Nat) (hnf : rd ∉ txt) :
    waitLoop (fun i => Except.ok (vals i)) rn rd txt 1 k s
      = Except.error (propagationTimeoutMsg rn) := by
  conv_lhs => rw [waitLoop.eq_def]
  simp only [if_neg hnf]
  simp

/-- a failed test with retries left queries again, sleeps, and loops. -/
theorem waitLoop_step (vals : Nat → List String) (rn rd : String)
    (txt : List String) (c k s : Nat) (hnf : rd ∉ txt) (hc : c ≠ 0) :
    waitLoop (fun i => Except.ok (vals i)) rn rd txt (c + 1) k s
      = waitLoop (fun i => Except.ok (vals i)) rn rd
          ((vals k).map stripOuterQuotes) c (k + 1) (s + 1) := by
  conv_lhs => rw [waitLoop.eq_def]
  simp only [if_neg hnf, if_neg hc]

/-- when the value never shows up in the window of examined queries, the loop
ends in the timeout error. Query `j` is the one last performed, the counter
holds `c`; the window of queries still examined is `j, ..., j + c - 1`. -/
theorem waitLoop_timeout (vals : Nat → List String) (rn rd : String) :
    ∀ c j, 1 ≤ c →
      (∀ t, j ≤ t → t < j + c → rd ∉ (vals t).map stripOuterQuotes) →
      waitLoop (fun i => Except.ok (vals i)) rn rd
          ((vals j).map stripOuterQuotes) c (j + 1) j
        = Except.error (propagationTimeoutMsg rn) := by
  intro c
  induction c with
  | zero =>
    intro j h1 _
    omega
  | succ c ih =>
    intro j _ h
    have hnf : rd ∉ (vals j).map stripOuterQuotes := h j le_rfl (by omega)
    by_cases hc : c = 0
    · subst hc
      exact waitLoop_last vals rn rd _ _ _ hnf
    · rw [waitLoop_step vals rn rd _ c (j + 1) j hnf hc]
      exact ih (j + 1) (by omega) (fun t ht1 ht2 => h t (by omega) (by omega))

/-- when the value first shows up at query `i` inside the window, the loop
succeeds right after query `i`, having slept `i - j` times since entry. -/
theorem waitLoop_success (vals : Nat → List String) (rn rd : String) :
    ∀ c j i, j ≤ i → i < j + c →
      rd ∈ (vals i).map stripOuterQuotes →
      (∀ t, j ≤ t → t < i → rd ∉ (vals t).map stripOuterQuotes) →
      waitLoop (fun i2 => Except.ok (vals i2)) rn rd
          ((vals j).map stripOuterQuotes) c (j + 1) j
        = Except.ok (i + 1, i) := by
  intro c
  induction c with
  | zero =>
    intro j i h1 h2
    omega
  | succ c ih =>
    intro j i hji hlt hfound hmin
    by_cases hij : i = j
    · subst hij
      exact waitLoop_found _ rn rd _ _ _ _ hfound
    · have hnf : rd ∉ (vals j).map stripOuterQuotes := hmin j le_rfl (by omega)
      have hc : c ≠ 0 := by omega
      rw [waitLoop_step vals rn rd _ c (j + 1) j hnf hc]
      exact ih (j + 1) i (by omega) (by omega) hfound (fun t ht1 ht2 => hmin t (by omega) ht2)

/-- C5: the propagation waiter examines the stripped TXT values of queries
`0..14` — 15 attempts, separated by sixty-second sleeps totalling at most 15
minutes — and (a) when the expected value appears in none of them it
terminates with the descriptive timeout `PluginError` rather than looping
forever, (b) when the value first appears at attempt `i` it succeeds right
after that query having slept `i` times, and (c) any successful run used at
most 15 attempts and slept at most 900 seconds. -/
theorem propagation_waiter_budget (vals : Nat → List String)
    (recordName recordData : String) :
    ((∀ t, t ≤ 14 → recordData ∉ (vals t).map stripOuterQuotes) →
       waitForRecordPropagation (fun i => Except.ok (vals i)) recordName recordData
         = Except.error (propagationTimeoutMsg recordName)) ∧
    (∀ i, i ≤ 14 → recordData ∈ (vals i).map stripOuterQuotes →
       (∀ t, t < i → recordData ∉ (vals t).map stripOuterQuotes) →
       waitForRecordPropagation (fun i2 => Except.ok (vals i2)) recordName recordData
         = Except.ok (i + 1, i)) ∧
    (∀ k s, waitForRecordPropagation (fun i => Except.ok (vals i)) recordName recordData
         = Except.ok (k, s) → k ≤ 15 ∧ s = k - 1 ∧ 60 * s ≤ 900) := by
  have hentry : waitForRecordPropagation (fun i => Except.ok (vals i)) recordName recordData
      = waitLoop (fun i => Except.ok (vals i)) recordName recordData
          ((vals 0).map stripOuterQuotes) 15 (0 + 1) 0 := rfl
  refine ⟨?_, ?_, ?_⟩
  · intro h
    rw [hentry]
    exact waitLoop_timeout vals recordName recordData 15 0 (by omega)
      (fun t ht1 ht2 => h t (by omega))
  · intro i hi hfound hmin
    rw [hentry]
    exact waitLoop_success vals recordName recordData 15 0 i (by omega) (by omega) hfound
      (fun t ht1 ht2 => hmin t ht2)
  · intro k s hks
    by_cases hex : ∃ t, t ≤ 14 ∧ recordData ∈ (vals t).map stripOuterQuotes
    · have hP := Nat.find_spec hex
      have hmin := fun m (hm : m < Nat.find hex) => Nat.find_min hex hm
      have hsucc : waitForRecordPropagation (fun i2 => Except.ok (vals i2))
          recordName recordData = Except.ok (Nat.find hex + 1, Nat.find hex) := by
        rw [hentry]
        refine waitLoop_success vals recordName recordData 15 0 (Nat.find hex)
          (by omega) (by omega) hP.2 ?_
        intro t ht1 ht2
        intro hmem
        exact hmin t ht2 ⟨by omega, hmem⟩
      rw [hks] at hsucc
      have hpair := Except.ok.inj hsucc
      have hk : k = Nat.find hex + 1 := congrArg Prod.fst hpair
      have hs : s = Nat.find hex := congrArg Prod.snd hpair
      have hle : Nat.find hex ≤ 14 := hP.1
      subst hk hs
      refine ⟨by omega, by omega, by omega⟩
    · push_neg at hex
      have := waitLoop_timeout vals recordName recordData 15 0 (by omega)
        (fun t ht1 ht2 => hex t (by omega))
      rw [hentry, this] at hks
      simp at hks

/-- C5 witness: when the very first query already carries the value, the
waiter succeeds with one attempt and no sleep. -/
theorem propagation_waiter_budget_witness :
    waitForRecordPropagation (fun _ => Except.ok ["xvx"]) "rn" "v" = Except.ok (1, 0) :=
  (propagation_waiter_budget (fun _ => ["xvx"]) "rn" "v").2.1 0 (by omega) (by decide)
    (fun t ht => absurd ht (Nat.not_lt_zero t))

/-! # C1 -/

/-- a successful zone-id lookup names the head of the filtered listing. -/
theorem getDnsZoneId_some_elim (zones : List DnsZone) (dz zid : String)
    (h : getDnsZoneId zones dz = some zid) :
    ∃ z, (zones.filter (fun z2 => z2.name == dz)).head? = some z ∧ z.id = zid := by
  unfold getDnsZoneId at h
  rcases hh : (zones.filter (fun z2 => z2.name == dz)).head? with _ | z
  · rw [hh] at h
    simp at h
  · rw [hh] at h
    simp at h
    exact ⟨z, hh, h⟩

/-- when no zone carries the candidate name, the lookup fails. -/
theorem getDnsZoneId_none_of_nomatch (zones : List DnsZone) (dz : String)
    (hz : ∀ z ∈ zones, z.name ≠ dz) :
    getDnsZoneId zones dz = none := by
  unfold getDnsZoneId
  have hfil : zones.filter (fun z2 => z2.name == dz) = [] :=
    List.filter_eq_nil_iff.mpr (fun z hzm => by simp [hz z hzm])
  rw [hfil]
  rfl

/-- when some zone carries the candidate name, the lookup succeeds. -/
theorem getDnsZoneId_isSome_of_match (zones : List DnsZone) (dz : String) (z : DnsZone)
    (hzmem : z ∈ zones) (hname : z.name = dz) :
    ∃ zid, getDnsZoneId zones dz = some zid := by
  unfold getDnsZoneId
  rcases hfil : zones.filter (fun z2 => z2.name == dz) with _ | ⟨z0, rest⟩
  · exfalso
    have hmem : z ∈ zones.filter (fun z2 => z2.name == dz) :=
      List.mem_filter.mpr ⟨hzmem, by simp [hname]⟩
    rw [hfil] at hmem
    simp at hmem
  · rw [hfil]
    exact ⟨z0.id, rfl⟩

/-- `resolveAttempt` with an available zone listing, with the listing match
reduced away. -/
theorem resolveAttempt_okList (zones : List DnsZone) (domain : String) (i : Nat) :
    resolveAttempt (Except.ok zones) domain i
      = match stripLeftLabels i domain with
        | none => Except.error "NoneType object has no attribute group"
        | some dz =>
          match getDnsZoneId zones dz with
          | none => Except.error
              ("Error occurred while trying to get dns zone id for domain " ++ dz ++ ".\n")
          | some zoneId => Except.ok (dz, zoneId) := by
  unfold resolveAttempt
  rcases stripLeftLabels i domain with _ | dz
  · rfl
  · rfl

/-- a successful attempt yields the stripped suffix together with the id of
the first zone in the listing with that name. -/
theorem resolveAttempt_ok_elim (zones : List DnsZone) (domain : String) (i : Nat)
    (p : String × String)
    (h : resolveAttempt (Except.ok zones) domain i = Except.ok p) :
    ∃ dz z, stripLeftLabels i domain = some dz ∧
      (zones.filter (fun z2 => z2.name == dz)).head? = some z ∧ p = (dz, z.id) := by
  rw [resolveAttempt_okList] at h
  split at h
  · simp at h
  · next dz heq =>
    split at h
    · simp at h
    · next zid heq2 =>
      obtain ⟨z, hz1, hz2⟩ := getDnsZoneId_some_elim zones dz zid heq2
      have hp : p = (dz, zid) := (Except.ok.inj h).symm
      exact ⟨dz, z, heq, hz1, by rw [hp, hz2]⟩

/-- an attempt whose stripped suffix matches no zone fails. -/
theorem resolveAttempt_err_of_nomatch (zones : List DnsZone) (domain : String) (i : Nat)
    (h : ¬ zoneSuffixMatch zones domain i) :
    ∃ e, resolveAttempt (Except.ok zones) domain i = Except.error e := by
  rw [resolveAttempt_okList]
  split
  · exact ⟨_, rfl⟩
  · next dz heq =>
    split
    · exact ⟨_, rfl⟩
    · next zid heq2 =>
      exfalso
      obtain ⟨z, hz1, hz2⟩ := getDnsZoneId_some_elim zones dz zid heq2
      obtain ⟨ys, hys⟩ := List.head?_eq_some_iff.mp hz1
      have hmem : z ∈ zones.filter (fun z2 => z2.name == dz) := by
        rw [hys]
        exact List.mem_cons_self z ys
      have hzz := List.mem_filter.mp hmem
      exact h ⟨dz, heq, z, hzz.1, by simpa using hzz.2⟩

/-- an attempt whose stripped suffix matches a zone succeeds. -/
theorem resolveAttempt_ok_of_match (zones : List DnsZone) (domain : String) (i : Nat)
    (h : zoneSuffixMatch zones domain i) :
    ∃ p, resolveAttempt (Except.ok zones) domain i = Except.ok p := by
  rw [resolveAttempt_okList]
  split
  · next heq =>
    exfalso
    obtain ⟨dz, hs, _⟩ := h
    rw [heq] at hs
    simp at hs
  · next dz heq =>
    split
    · next heq2 =>
      exfalso
      obtain ⟨dz0, hs, z, hzmem, hname⟩ := h
      rw [heq] at hs
      have hdz : dz = dz0 := Option.some.inj hs
      subst hdz
      obtain ⟨zid, hzid⟩ := getDnsZoneId_isSome_of_match zones dz z hzmem hname
      rw [heq2] at hzid
      simp at hzid
    · next zid heq2 =>
      exact ⟨(dz, zid), rfl⟩

/-- one unfolding of the resolution loop with fuel left. -/
theorem resolveZoneGo_succ (zl : Except String (List DnsZone)) (d : String)
    (fe : String → String) (i fuel : Nat) :
    resolveZoneGo zl d fe i (fuel + 1)
      = match resolveAttempt zl d i with
        | Except.ok p => Except.ok p
        | Except.error e =>
          if fuel = 0 then Except.error (fe e) else resolveZoneGo zl d fe (i + 1) fuel := rfl

/-- a failed attempt with fuel remaining moves on to the next attempt. -/
theorem resolveZoneGo_err_step (zl : Except String (List DnsZone)) (d : String)
    (fe : String → String) (i fuel : Nat) (e : String) (hfuel : fuel ≠ 0)
    (h : resolveAttempt zl d i = Except.error e) :
    resolveZoneGo zl d fe i (fuel + 1) = resolveZoneGo zl d fe (i + 1) fuel := by
  rw [resolveZoneGo_succ, h]
  simp [hfuel]

/-- a successful attempt ends the loop at once. -/
theorem resolveZoneGo_ok_step (zl : Except String (List DnsZone)) (d : String)
    (fe : String → String) (i fuel : Nat) (p : String × String)
    (h : resolveAttempt zl d i = Except.ok p) :
    resolveZoneGo zl d fe i (fuel + 1) = Except.ok p := by
  rw [resolveZoneGo_succ, h]

/-- the failure of the last attempt raises the final error. -/
theorem resolveZoneGo_last_err (zl : Except String (List DnsZone)) (d : String)
    (fe : String → String) (i : Nat) (e : String)
    (h : resolveAttempt zl d i = Except.error e) :
    resolveZoneGo zl d fe i 1 = Except.error (fe e) := by
  rw [resolveZoneGo_succ, h]
  simp

/-- C1: for every domain, zone resolution (in both entry points) succeeds
if and only if some suffix of the domain obtained by stripping 0 to 3
leftmost labels exactly matches the name of a zone in the listing; it returns
the stripped suffix of the first matching attempt together with the id of the
first zone of that name, and after 4 failed attempts it fails with the
descriptive zone-lookup error of the respective entry point. -/
theorem zone_resolution_characterization (zones : List DnsZone) (domain : String) :
    ((∃ i, i ≤ 3 ∧ zoneSuffixMatch zones domain i) →
       ∃ i dz z, i ≤ 3 ∧
         stripLeftLabels i domain = some dz ∧
         (zones.filter (fun z2 => z2.name == dz)).head? = some z ∧
         (∀ j, j < i → ¬ zoneSuffixMatch zones domain j) ∧
         resolveZoneAdd (Except.ok zones) domain = Except.ok (dz, z.id) ∧
         resolveZoneDel (Except.ok zones) domain = Except.ok (dz, z.id)) ∧
    ((∀ i, i ≤ 3 → ¬ zoneSuffixMatch zones domain i) →
       resolveZoneAdd (Except.ok zones) domain = Except.error (addZoneFinalErr "") ∧
       ∃ e, resolveZoneDel (Except.ok zones) domain = Except.error (delZoneFinalErr e)) := by
  constructor
  · intro hex
    by_cases m0 : zoneSuffixMatch zones domain 0
    · obtain ⟨p, hp⟩ := resolveAttempt_ok_of_match zones domain 0 m0
      obtain ⟨dz, z, hstrip, hhead, hpe⟩ := resolveAttempt_ok_elim zones domain 0 p hp
      subst hpe
      refine ⟨0, dz, z, by omega, hstrip, hhead, fun j hj => absurd hj (by omega), ?_, ?_⟩
      · exact resolveZoneGo_ok_step _ _ _ 0 3 _ hp
      · exact resolveZoneGo_ok_step _ _ _ 0 3 _ hp
    · obtain ⟨e0, h0⟩ := resolveAttempt_err_of_nomatch zones domain 0 m0
      by_cases m1 : zoneSuffixMatch zones domain 1
      · obtain ⟨p, hp⟩ := resolveAttempt_ok_of_match zones domain 1 m1
        obtain ⟨dz, z, hstrip, hhead, hpe⟩ := resolveAttempt_ok_elim zones domain 1 p hp
        subst hpe
        refine ⟨1, dz, z, by omega, hstrip, hhead, ?_, ?_, ?_⟩
        · intro j hj
          have : j = 0 := by omega
          subst this
          exact m0
        · rw [show resolveZoneAdd (Except.ok zones) domain
              = resolveZoneGo (Except.ok zones) domain addZoneFinalErr 0 4 from rfl,
            resolveZoneGo_err_step _ _ _ 0 3 e0 (by omega) h0]
          exact resolveZoneGo_ok_step _ _ _ 1 2 _ hp
        · rw [show resolveZoneDel (Except.ok zones) domain
              = resolveZoneGo (Except.ok zones) domain delZoneFinalErr 0 4 from rfl,
            resolveZoneGo_err_step _ _ _ 0 3 e0 (by omega) h0]
          exact resolveZoneGo_ok_step _ _ _ 1 2 _ hp
      · obtain ⟨e1, h1⟩ := resolveAttempt_err_of_nomatch zones domain 1 m1
        by_cases m2 : zoneSuffixMatch zones domain 2
        · obtain ⟨p, hp⟩ := resolveAttempt_ok_of_match zones domain 2 m2
          obtain ⟨dz, z, hstrip, hhead, hpe⟩ := resolveAttempt_ok_elim zones domain 2 p hp
          subst hpe
          refine ⟨2, dz, z, by omega, hstrip, hhead, ?_, ?_, ?_⟩
          · intro j hj
            rcases j with _ | _ | j
            · exact m0
            · exact m1
            · omega
          · rw [show resolveZoneAdd (Except.ok zones) domain
                = resolveZoneGo (Except.ok zones) domain addZoneFinalErr 0 4 from rfl,
              resolveZoneGo_err_step _ _ _ 0 3 e0 (by omega) h0,
              resolveZoneGo_err_step _ _ _ 1 2 e1 (by omega) h1]
            exact resolveZoneGo_ok_step _ _ _ 2 1 _ hp
          · rw [show resolveZoneDel (Except.ok zones) domain
                = resolveZoneGo (Except.ok zones) domain delZoneFinalErr 0 4 from rfl,
              resolveZoneGo_err_step _ _ _ 0 3 e0 (by omega) h0,
              resolveZoneGo_err_step _ _ _ 1 2 e1 (by omega) h1]
            exact resolveZoneGo_ok_step _ _ _ 2 1 _ hp
        · obtain ⟨e2, h2⟩ := resolveAttempt_err_of_nomatch zones domain 2 m2
          by_cases m3 : zoneSuffixMatch zones domain 3
          · obtain ⟨p, hp⟩ := resolveAttempt_ok_of_match zones domain 3 m3
            obtain ⟨dz, z, hstrip, hhead, hpe⟩ := resolveAttempt_ok_elim zones domain 3 p hp
            subst hpe
            refine ⟨3, dz, z, by omega, hstrip, hhead, ?_, ?_, ?_⟩
            · intro j hj
              rcases j with _ | _ | _ | j
              · exact m0
              · exact m1
              · exact m2
              · omega
            · rw [show resolveZoneAdd (Except.ok zones) domain
                  = resolveZoneGo (Except.ok zones) domain addZoneFinalErr 0 4 from rfl,
                resolveZoneGo_err_step _ _ _ 0 3 e0 (by omega) h0,
                resolveZoneGo_err_step _ _ _ 1 2 e1 (by omega) h1,
                resolveZoneGo_err_step _ _ _ 2 1 e2 (by omega) h2]
              exact resolveZoneGo_ok_step _ _ _ 3 0 _ hp
            · rw [show resolveZoneDel (Except.ok zones) domain
                  = resolveZoneGo (Except.ok zones) domain delZoneFinalErr 0 4 from rfl,
                resolveZoneGo_err_step _ _ _ 0 3 e0 (by omega) h0,
                resolveZoneGo_err_step _ _ _ 1 2 e1 (by omega) h1,
                resolveZoneGo_err_step _ _ _ 2 1 e2 (by omega) h2]
              exact resolveZoneGo_ok_step _ _ _ 3 0 _ hp
          · exfalso
            obtain ⟨i0, hi0, hm⟩ := hex
            rcases i0 with _ | _ | _ | _ | i0
            · exact m0 hm
            · exact m1 hm
            · exact m2 hm
            · exact m3 hm
            · omega
  · intro hall
    obtain ⟨e0, h0⟩ := resolveAttempt_err_of_nomatch zones domain 0 (hall 0 (by omega))
    obtain ⟨e1, h1⟩ := resolveAttempt_err_of_nomatch zones domain 1 (hall 1 (by omega))
    obtain ⟨e2, h2⟩ := resolveAttempt_err_of_nomatch zones domain 2 (hall 2 (by omega))
    obtain ⟨e3, h3⟩ := resolveAttempt_err_of_nomatch zones domain 3 (hall 3 (by omega))
    constructor
    · rw [show resolveZoneAdd (Except.ok zones) domain
          = resolveZoneGo (Except.ok zones) domain addZoneFinalErr 0 4 from rfl,
        resolveZoneGo_err_step _ _ _ 0 3 e0 (by omega) h0,
        resolveZoneGo_err_step _ _ _ 1 2 e1 (by omega) h1,
        resolveZoneGo_err_step _ _ _ 2 1 e2 (by omega) h2,
        resolveZoneGo_last_err _ _ _ 3 e3 h3]
      rfl
    · refine ⟨e3, ?_⟩
      rw [show resolveZoneDel (Except.ok zones) domain
          = resolveZoneGo (Except.ok zones) domain delZoneFinalErr 0 4 from rfl,
        resolveZoneGo_err_step _ _ _ 0 3 e0 (by omega) h0,
        resolveZoneGo_err_step _ _ _ 1 2 e1 (by omega) h1,
        resolveZoneGo_err_step _ _ _ 2 1 e2 (by omega) h2,
        resolveZoneGo_last_err _ _ _ 3 e3 h3]

/-- C1 witness: for `c.a.b` against the one-zone listing `a.b`, stripping one
label matches, and resolution in both entry points returns that zone. -/
theorem zone_resolution_characterization_witness :
    (∃ i, i ≤ 3 ∧ zoneSuffixMatch zones0 "c.a.b" i) ∧
    (∃ i dz z, i ≤ 3 ∧
       stripLeftLabels i "c.a.b" = some dz ∧
       (zones0.filter (fun z2 => z2.name == dz)).head? = some z ∧
       (∀ j, j < i → ¬ zoneSuffixMatch zones0 "c.a.b" j) ∧
       resolveZoneAdd (Except.ok zones0) "c.a.b" = Except.ok (dz, z.id) ∧
       resolveZoneDel (Except.ok zones0) "c.a.b" = Except.ok (dz, z.id)) := by
  have hyp : ∃ i, i ≤ 3 ∧ zoneSuffixMatch zones0 "c.a.b" i :=
    ⟨1, by omega, "a.b", by decide, ⟨"a.b", "z1"⟩, by decide, rfl⟩
  exact ⟨hyp, (zone_resolution_characterization zones0 "c.a.b").1 hyp⟩

end CertbotDnsNgenix
